import Mathlib

/-!
Shallow embedding of the AgentOS event core (event bus, chain executor,
parameter interpolator, thread store) and proofs about the behaviour of
the embedded code.

Conventions of the embedding:
* Python values (the JSON-like payloads flowing through the system) are
  modelled by the inductive type Value below; Python dicts are ordered
  association lists, matching insertion-ordered Python dicts.
* Python exceptions are modelled by PyErr (exception class name plus the
  message given by str(e)); fallible code returns Except PyErr.
* Wall-clock data (timestamp fields, execution_time_ms, durations) is not
  modelled: no verified property depends on it.
* asyncio.gather over a known member list is modelled as in-order
  execution of the members (one admissible cooperative schedule); both
  fan-out points (bus handlers, parallel chain groups) are bounded and
  self-terminating, and the verified properties do not depend on the
  interleaving.
-/

set_option maxHeartbeats 1000000

namespace AgentOS

/-- JSON-like Python values: strings, integers, booleans, None, lists and
(insertion-ordered) dicts with string keys. The extra constructor cls
stands for an opaque non-serialisable Python object passed by reference
(in this code base: a pydantic schema class handed to the decision
handler). -/
inductive Value where
  | str : String → Value
  | int : Int → Value
  | bool : Bool → Value
  | null : Value
  | list : List Value → Value
  | dict : List (String × Value) → Value
  | cls : String → Value
deriving Inhabited

/-- Python exception: class name and message (the result of str(e)). -/
structure PyErr where
  ty : String
  msg : String
deriving Repr, DecidableEq, Inhabited

/-- Association-list lookup, first match wins; models Python dict lookup
d.get(k) on insertion-ordered dicts (keys are unique in dicts built by
the embedded code). -/
def alookup {α : Type} : List (String × α) → String → Option α
  | [], _ => Option.none
  | (k, v) :: rest, key => if k = key then some v else alookup rest key

/-- Python dict assignment d[k] = v: an existing key keeps its position
and gets the new value, a new key is appended at the end. -/
def dictSet {α : Type} : List (String × α) → String → α → List (String × α)
  | [], key, v => [(key, v)]
  | (k, v') :: rest, key, v =>
    if k = key then (k, v) :: rest else (k, v') :: dictSet rest key v

/-- Keys of an association list, in order. -/
def keysOf {α : Type} (m : List (String × α)) : List String := m.map Prod.fst

/-- Python dict lookup on a Value: d[k] or d.get(k) when the value is a
dict; anything else has no string item. -/
def dictLookup (m : List (String × Value)) (k : String) : Option Value := alookup m k

/-- Python truthiness of a value (used by Thread.get_context on
event.result): empty containers, empty strings, zero, False and None are
falsy. -/
def Value.truthy : Value → Bool
  | Value.str s => !s.isEmpty
  | Value.int n => !(n == 0)
  | Value.bool b => b
  | Value.null => false
  | Value.list xs => !xs.isEmpty
  | Value.dict m => !m.isEmpty
  | Value.cls _ => true

/-- Whether a value is a Python dict. -/
def Value.isDict : Value → Bool
  | Value.dict _ => true
  | _ => false

mutual
/-- Whether a value is serialisable by json.dumps (no opaque object
inside); json.dumps raises TypeError on a cls leaf. -/
def Value.jsonable : Value → Bool
  | Value.str _ => true
  | Value.int _ => true
  | Value.bool _ => true
  | Value.null => true
  | Value.cls _ => false
  | Value.list xs => Value.jsonableList xs
  | Value.dict m => Value.jsonableDict m

/-- jsonable on a list of values. -/
def Value.jsonableList : List Value → Bool
  | [] => true
  | v :: rest => Value.jsonable v && Value.jsonableList rest

/-- jsonable on dict entries. -/
def Value.jsonableDict : List (String × Value) → Bool
  | [] => true
  | (_, v) :: rest => Value.jsonable v && Value.jsonableDict rest
end

/-- Minimal JSON string escaping as performed by json.dumps on the
strings appearing in this development (backslash, quote and the common
control characters; other characters pass through). -/
def jsonEscape (s : String) : String :=
  String.join (s.data.map fun c =>
    if c = '\\' then "\\\\"
    else if c = '"' then "\\\""
    else if c = '\n' then "\\n"
    else if c = '\t' then "\\t"
    else if c = '\r' then "\\r"
    else String.mk [c])

mutual
/-- json.dumps with its default separators (a comma-space between items,
a colon-space after keys), as called by ParameterInterpolator.
_interpolate_string for embedding structured values in text. A cls leaf
is rendered as a placeholder; json.dumps would raise TypeError there, and
the theorems that mention serialised output therefore carry a
Value.jsonable hypothesis. -/
def jsonDumps : Value → String
  | Value.str s => "\"" ++ jsonEscape s ++ "\""
  | Value.int n => toString n
  | Value.bool b => cond b "true" "false"
  | Value.null => "null"
  | Value.cls n => "\x3cclass " ++ n ++ "\x3e"
  | Value.list xs => "[" ++ jsonDumpsList xs ++ "]"
  | Value.dict m => "\x7b" ++ jsonDumpsDict m ++ "\x7d"

/-- Comma-separated serialisation of the elements of a JSON array. -/
def jsonDumpsList : List Value → String
  | [] => ""
  | [v] => jsonDumps v
  | v :: rest => jsonDumps v ++ ", " ++ jsonDumpsList rest

/-- Comma-separated serialisation of the entries of a JSON object. -/
def jsonDumpsDict : List (String × Value) → String
  | [] => ""
  | [(k, v)] => "\"" ++ jsonEscape k ++ "\": " ++ jsonDumps v
  | (k, v) :: rest =>
    "\"" ++ jsonEscape k ++ "\": " ++ jsonDumps v ++ ", " ++ jsonDumpsDict rest
end

/-- The text substituted for a resolved expression in the mixed-text case
of _interpolate_string: json.dumps for dicts and lists, Python str()
otherwise. -/
def toEmbed (v : Value) : String :=
  match v with
  | Value.dict _ => jsonDumps v
  | Value.list _ => jsonDumps v
  | Value.str s => s
  | Value.int n => toString n
  | Value.bool b => cond b "True" "False"
  | Value.null => "None"
  | Value.cls n => "\x3cclass " ++ n ++ "\x3e"

namespace ParameterInterpolator

/-- One token of an interpolatable string: literal text, or the inner
path of a brace expression. -/
inductive Tok where
  | lit : String → Tok
  | expr : String → Tok
deriving Repr, DecidableEq

/-- Single left-to-right scan of a string for the regex
backslash-brace ( [^}]+ ) backslash-brace used by ParameterInterpolator.
acc holds the pending literal characters in reverse; st is Option.none
in literal text and some eacc after an opening brace, with the candidate
expression characters (any characters other than a closing brace) in
reverse. A closing brace after at least one expression character emits
an expression token and scanning resumes after it; a closing brace
immediately after the opening brace matches nothing (the pattern needs
at least one inner character), so both braces are literal; an unclosed
opening brace makes the whole remainder literal, since no match can
start after it either. -/
def tokenizeAux (acc : List Char) (st : Option (List Char)) : List Char → List Tok
  | [] =>
    match st with
    | Option.none => if acc.isEmpty then [] else [Tok.lit (String.mk acc.reverse)]
    | some eacc => [Tok.lit (String.mk (acc.reverse ++ '{' :: eacc.reverse))]
  | c :: cs =>
    match st with
    | Option.none =>
      if c = '{' then tokenizeAux acc (some []) cs
      else tokenizeAux (c :: acc) Option.none cs
    | some eacc =>
      if c = '}' then
        if eacc.isEmpty then tokenizeAux ('}' :: '{' :: acc) Option.none cs
        else
          (if acc.isEmpty then [] else [Tok.lit (String.mk acc.reverse)])
            ++ Tok.expr (String.mk eacc.reverse) :: tokenizeAux [] Option.none cs
      else tokenizeAux acc (some (c :: eacc)) cs

/-- All matches of the interpolation pattern in a string, together with
the literal text around them. -/
def tokenize (s : String) : List Tok := tokenizeAux [] Option.none s.data

/-- A path segment: an object key or an integer index in brackets. -/
inductive Seg where
  | key : String → Seg
  | idx : Int → Seg
deriving Repr, DecidableEq

/-- Decimal digits to a natural number. -/
def digitsToNat (ds : List Char) : Nat :=
  ds.foldl (fun n c => n * 10 + (c.toNat - '0'.toNat)) 0

/-- Python int() on the index text between brackets, for the forms the
interpolation language produces: an optional sign followed by digits.
Exotic inputs accepted by Python (surrounding whitespace, underscores)
are not modelled; on them the embedded parser fails like int() fails on
genuinely malformed text. -/
def parseIntPy (s : List Char) : Option Int :=
  match s with
  | '-' :: ds =>
    if !ds.isEmpty && ds.all Char.isDigit then some (-(digitsToNat ds : Int)) else Option.none
  | '+' :: ds =>
    if !ds.isEmpty && ds.all Char.isDigit then some ((digitsToNat ds : Int)) else Option.none
  | ds =>
    if !ds.isEmpty && ds.all Char.isDigit then some ((digitsToNat ds : Int)) else Option.none

/-- Flush the pending key characters as a segment (only when nonempty),
mirroring the "if current_segment" flushes of _parse_path. -/
def flushSeg (cur : List Char) : List Seg :=
  if cur.isEmpty then [] else [Seg.key (String.mk cur)]

/-- ParameterInterpolator._parse_path: split a dotted path with optional
bracketed integer indices into segments. br is Option.none outside
brackets and some iacc (index characters in reverse) inside; a closing
bracket parses the index text with int() (ValueError on failure), the
flush of the pending key happens when the opening bracket is seen, and a
path ending inside brackets raises the unmatched-bracket ValueError. -/
def parsePathAux (segs : List Seg) (cur : List Char) (br : Option (List Char)) :
    List Char → Except PyErr (List Seg)
  | [] =>
    match br with
    | Option.none => .ok (segs ++ flushSeg cur)
    | some _ => .error ⟨"ValueError", "Unmatched bracket in path"⟩
  | c :: cs =>
    match br with
    | Option.none =>
      if c = '.' then parsePathAux (segs ++ flushSeg cur) [] Option.none cs
      else if c = '[' then parsePathAux (segs ++ flushSeg cur) [] (some []) cs
      else parsePathAux segs (cur ++ [c]) Option.none cs
    | some iacc =>
      if c = ']' then
        match parseIntPy iacc.reverse with
        | Option.none => .error ⟨"ValueError", "Invalid array index in path"⟩
        | some n => parsePathAux (segs ++ [Seg.idx n]) [] Option.none cs
      else parsePathAux segs cur (some (c :: iacc)) cs

/-- Parse a full path string into segments. -/
def parsePath (path : String) : Except PyErr (List Seg) :=
  parsePathAux [] [] Option.none path.data

/-- Navigation step of _resolve_path: an integer segment requires a list
and an index below its length (negative indices count from the end;
Python raises KeyError when the value is not a list or the index is too
large, and IndexError when a negative index is below -len); a key
segment requires a dict containing the key. -/
def navigate : Value → List Seg → Except PyErr Value
  | cur, [] => .ok cur
  | cur, Seg.idx n :: rest =>
    match cur with
    | Value.list xs =>
      if n ≥ (xs.length : Int) then .error ⟨"KeyError", "Invalid array index in path"⟩
      else
        let i : Int := if n < 0 then n + (xs.length : Int) else n
        if hip : 0 ≤ i ∧ i < (xs.length : Int) then
          navigate (xs.get ⟨i.toNat, by omega⟩) rest
        else .error ⟨"IndexError", "list index out of range"⟩
    | _ => .error ⟨"KeyError", "Invalid array index in path"⟩
  | cur, Seg.key k :: rest =>
    match cur with
    | Value.dict m =>
      match dictLookup m k with
      | some v => navigate v rest
      | Option.none => .error ⟨"KeyError", "Key not found in path"⟩
    | _ => .error ⟨"KeyError", "Key not found in path"⟩

/-- ParameterInterpolator._resolve_path: parse the path and walk the
context. -/
def resolvePath (ctx : Value) (path : String) : Except PyErr Value :=
  match parsePath path with
  | .error e => .error e
  | .ok segs => navigate ctx segs

/-- Text renderer for the mixed-text branch of _interpolate_string: each
literal token verbatim, each expression token replaced by its resolved
value embedded as text, or by the original brace expression when
resolution fails. -/
def renderToks (ctx : Value) : List Tok → String
  | [] => ""
  | Tok.lit s :: ts => s ++ renderToks ctx ts
  | Tok.expr p :: ts =>
    (match resolvePath ctx p with
     | .ok v => toEmbed v
     | .error _ => "\x7b" ++ p ++ "\x7d") ++ renderToks ctx ts

/-- ParameterInterpolator._interpolate_string: when the whole string is a
single brace expression, return the resolved value itself (the original
text when resolution fails); otherwise substitute every expression as
text. -/
def interpolateString (ctx : Value) (text : String) : Value :=
  match tokenize text with
  | [Tok.expr p] =>
    match resolvePath ctx p with
    | .ok v => v
    | .error _ => Value.str text
  | toks => Value.str (renderToks ctx toks)

mutual
/-- ParameterInterpolator.interpolate: strings are interpolated, dicts
and lists are walked recursively, every other value passes through
unchanged. -/
def interpolate (ctx : Value) : Value → Value
  | Value.str s => interpolateString ctx s
  | Value.dict m => Value.dict (interpolateDict ctx m)
  | Value.list xs => Value.list (interpolateList ctx xs)
  | v => v

/-- interpolate on dict entries. -/
def interpolateDict (ctx : Value) : List (String × Value) → List (String × Value)
  | [] => []
  | (k, v) :: rest => (k, interpolate ctx v) :: interpolateDict ctx rest

/-- interpolate on list elements. -/
def interpolateList (ctx : Value) : List Value → List Value
  | [] => []
  | v :: rest => interpolate ctx v :: interpolateList ctx rest
end

/-- Python str.split on a dot, keeping empty parts (the result is always
nonempty); implemented on the character list so that it evaluates by
reduction. -/
def splitDotsAux (cur : List Char) : List Char → List String
  | [] => [String.mk cur.reverse]
  | c :: cs =>
    if c = '.' then String.mk cur.reverse :: splitDotsAux [] cs
    else splitDotsAux (c :: cur) cs

/-- eventName.split on a dot. -/
def pySplitDot (s : String) : List String := splitDotsAux [] s.data

/-- Shared walk of ParameterInterpolator.add_result and
Thread.get_context: descend along the leading name parts, creating an
empty dict for a missing part, and store a dict with a single result key
at the final part. An intermediate value that exists but is not a dict
makes the next Python subscript raise; that is returned as an error. -/
def addResultAux (m : List (String × Value)) (parts : List String) (result : Value) :
    Except PyErr (List (String × Value)) :=
  match parts with
  | [] => .ok m
  | [last] => .ok (dictSet m last (Value.dict [("result", result)]))
  | p :: rest =>
    match dictLookup m p with
    | Option.none =>
      (addResultAux [] rest result).map (fun sub => dictSet m p (Value.dict sub))
    | some (Value.dict sub) =>
      (addResultAux sub rest result).map (fun sub2 => dictSet m p (Value.dict sub2))
    | some _ => .error ⟨"TypeError", "intermediate path value is not a dict"⟩

/-- ParameterInterpolator.add_result: split the event name on dots and
install the result under a final result key; the context is the dict
owned by the in-flight run. -/
def addResult (ctx : Value) (eventName : String) (result : Value) : Except PyErr Value :=
  match ctx with
  | Value.dict m => (addResultAux m (pySplitDot eventName) result).map Value.dict
  | _ => .error ⟨"TypeError", "context is not a dict"⟩

end ParameterInterpolator

/-! ## Event bus (src/modules/eventbus/event_bus.py, ConcurrentEventBus) -/

/-- An event as built by ConcurrentEventBus.publish (the wall-clock
timestamp field is not modelled). -/
structure Event where
  type : String
  data : Value
  source : String

/-- A subscribed handler: its function name (the key used for the result
map) and its behaviour, an exception or a returned value. Handlers are
pure in the embedding; the bus passes them the published Event. -/
structure Handler where
  name : String
  run : Event → Except PyErr Value

/-- A registered pydantic input schema: constructing the model validates
the payload (raising ValidationError on failure) and model_dump returns
the normalised payload. -/
structure Schema where
  name : String
  validate : Value → Except PyErr Value

/-- State of a ConcurrentEventBus: handler lists per event type, schema
per event type, bounded in-memory history and its cap. File persistence
is disabled on the bus instance the executor uses (persistence_file is
None) and is not modelled. -/
structure BusState where
  handlers : List (String × List Handler)
  schemas : List (String × Schema)
  history : List Event
  maxHistorySize : Nat

/-- The source default for max_history_size in ConcurrentEventBus.
__init__. -/
def defaultMaxHistorySize : Nat := 1000

/-- A fresh bus with the given history cap and no registrations. -/
def newBus (cap : Nat) : BusState :=
  { handlers := [], schemas := [], history := [], maxHistorySize := cap }

/-- The handler list for an event type; an unregistered type has no
handlers (self._handlers.get(event_type, [])). -/
def handlersFor (bus : BusState) (eventType : String) : List Handler :=
  (alookup bus.handlers eventType).getD []

/-- ConcurrentEventBus.get_schema: the registered schema or None. -/
def getSchema (bus : BusState) (eventType : String) : Option Schema :=
  alookup bus.schemas eventType

/-- ConcurrentEventBus.subscribe: append the handler to the defaultdict
entry for the event type. -/
def subscribe (bus : BusState) (eventType : String) (h : Handler) : BusState :=
  { bus with handlers :=
      dictSet bus.handlers eventType (handlersFor bus eventType ++ [h]) }

/-- History append followed by the cap check of publish: append the new
event, then pop the oldest entry when the length exceeds the cap. -/
def boundedAppend (max : Nat) (h : List Event) (e : Event) : List Event :=
  let h1 := h ++ [e]
  if h1.length > max then h1.drop 1 else h1

/-- Outcome of one handler as folded into handler_results by publish: the
returned value, or an error dict carrying str(exception) when the
handler raised (gather with return_exceptions captures the exception and
the loop isolates it per handler). -/
def handlerOutcome (ev : Event) (h : Handler) : Value :=
  match h.run ev with
  | .ok v => v
  | .error e => Value.dict [("error", Value.str e.msg)]

/-- The handler_results loop of publish: results arrive in handler-list
order (gather preserves task order) and are stored under the handler
function name, a later handler with the same name overwriting an earlier
entry. -/
def collectResults (ev : Event) : List Handler → List (String × Value) → List (String × Value)
  | [], acc => acc
  | h :: hs, acc => collectResults ev hs (dictSet acc h.name (handlerOutcome ev h))

/-- Result of one publish call. Mutations of the bus object survive a
raised exception, exactly as in Python, so the post-call bus state is
returned in every case; invoked lists the handlers actually called, in
order. -/
structure PublishOutcome where
  result : Except PyErr Value
  bus : BusState
  invoked : List String

/-- Post-validation part of publish: build the Event, append it to the
bounded history, invoke every subscribed handler and shape the return
value (empty dict for no handlers, the single result unwrapped, or the
result map). -/
def publishCore (bus : BusState) (eventType : String) (data : Value) (source : String) :
    PublishOutcome :=
  let ev : Event := { type := eventType, data := data, source := source }
  let bus1 : BusState :=
    { bus with history := boundedAppend bus.maxHistorySize bus.history ev }
  let hs := handlersFor bus eventType
  let results := collectResults ev hs []
  let retval : Value :=
    match results with
    | [] => Value.dict []
    | [single] => single.2
    | multi => Value.dict multi
  { result := .ok retval, bus := bus1, invoked := hs.map Handler.name }

/-- The schema-check block at the top of publish: when the event type
has a registered schema the payload is validated by it (and replaced by
the normalised model_dump), otherwise a warning is logged and the
payload passes through unvalidated. -/
def validationOf (bus : BusState) (eventType : String) (data : Value) : Except PyErr Value :=
  match alookup bus.schemas eventType with
  | some schema => schema.validate data
  | Option.none => .ok data

/-- ConcurrentEventBus.publish: validate against the registered schema
when one exists (a ValidationError aborts the call before any mutation:
the raise happens before the history append and before any handler
runs), then run the post-validation body. -/
def publish (bus : BusState) (eventType : String) (data : Value) (source : String) :
    PublishOutcome :=
  match validationOf bus eventType data with
  | .error e => { result := .error e, bus := bus, invoked := [] }
  | .ok validated => publishCore bus eventType validated source

/-- One publish request, for reasoning about publish sequences. -/
structure PublishReq where
  eventType : String
  data : Value
  source : String

/-- Run a sequence of publish calls, threading the bus state. -/
def publishSeq (bus : BusState) : List PublishReq → BusState
  | [] => bus
  | r :: rs => publishSeq (publish bus r.eventType r.data r.source).bus rs

/-- The event a publish request appends to history: none when the call is
aborted by schema validation, otherwise the event carrying the
(possibly normalised) payload. -/
def publishedEvent (bus : BusState) (r : PublishReq) : Option Event :=
  match validationOf bus r.eventType r.data with
  | .error _ => Option.none
  | .ok validated => some { type := r.eventType, data := validated, source := r.source }

/-- The events appended to history by a publish sequence, in publish
order (aborted publishes contribute nothing). -/
def producedEvents (bus : BusState) : List PublishReq → List Event
  | [] => []
  | r :: rs =>
    (publishedEvent bus r).toList ++
      producedEvents (publish bus r.eventType r.data r.source).bus rs

/-- The last n entries of a list. -/
def takeLast {α : Type} (n : Nat) (l : List α) : List α := l.drop (l.length - n)

/-! ## Thread store (src/modules/providers/thread_manager.py) -/

/-- A single event within a thread (the ISO timestamp field is not
modelled). -/
structure ThreadEvent where
  event : String
  result : Value
  params : Option Value
  error : Option Value

/-- A conversation thread: identifier, summary, status, the append-only
event log and free-form metadata (created_at and updated_at are
wall-clock fields and are not modelled). -/
structure Thread where
  threadId : String
  summary : String
  status : String
  events : List ThreadEvent
  metadata : Value

/-- asdict on a ThreadEvent, as embedded into the context tree by
Thread.get_context. -/
def ThreadEvent.toValue (e : ThreadEvent) : Value :=
  Value.dict [("event", Value.str e.event), ("result", e.result),
    ("params", e.params.getD Value.null), ("error", e.error.getD Value.null)]

/-- The base dictionary built at the top of Thread.get_context, before
recent event results are folded in. -/
def Thread.baseContext (t : Thread) : List (String × Value) :=
  [("thread_id", Value.str t.threadId),
   ("summary", Value.str t.summary),
   ("metadata", t.metadata),
   ("thread", Value.dict [(t.threadId, Value.dict
      [("events", Value.list (t.events.map ThreadEvent.toValue)),
       ("summary", Value.str t.summary),
       ("metadata", t.metadata)])])]

/-- Thread.get_context: the base dictionary plus, for each of the last
ten events whose name contains a dot and whose result is truthy, the
result installed along the dotted name (the walk is the one shared with
add_result; an intermediate non-dict value raises, and that exception
escapes execute_chain because get_context runs before its try block). -/
def Thread.getContext (t : Thread) : Except PyErr Value :=
  let recent := t.events.drop (t.events.length - 10)
  (recent.foldlM (fun m e =>
      if e.event.data.contains '.' && e.result.truthy then
        ParameterInterpolator.addResultAux m (ParameterInterpolator.pySplitDot e.event) e.result
      else .ok m)
    t.baseContext).map Value.dict

/-- The thread store: thread id to thread, as persisted by ThreadStorage
(load and save are modelled as lookup and in-place update on this map). -/
abbrev Threads := List (String × Thread)

/-- Store a thread back under its id (ThreadStorage.save). -/
def saveThread (ts : Threads) (threadId : String) (t : Thread) : Threads :=
  dictSet ts threadId t

/-- ThreadManager.add_event_to_thread: load the thread (False when it
does not exist), append the event to its log and save. The chain
executor never calls this function. -/
def addEventToThread (ts : Threads) (threadId : String) (e : ThreadEvent) : Bool × Threads :=
  match alookup ts threadId with
  | Option.none => (false, ts)
  | some t => (true, saveThread ts threadId { t with events := t.events ++ [e] })

/-! ## Chain executor (src/modules/eventbus/event_chain.py) -/

/-- ChainEventSpec, the per-step record the executor fills in (its
defining module is not in the source tree; the fields are the ones
event_chain.py constructs and reads: event, params, decide, result,
error — wall-clock fields omitted as elsewhere). -/
structure ChainEventSpec where
  event : String
  params : Value
  decide : Option String
  result : Option Value
  error : Option Value

/-- One step of the chain wire format: the target event name, the params
dict (defaulted to an empty dict by event_spec.get) and the optional
decide prompt. -/
structure StepSpec where
  event : String
  params : Value
  decide : Option String

/-- One element of a chain: a sequential step or a parallel group. -/
inductive ChainItem where
  | single : StepSpec → ChainItem
  | par : List StepSpec → ChainItem

/-- EventChainResult (total_execution_time_ms not modelled). -/
structure EventChainResult where
  threadId : String
  events : List ChainEventSpec
  success : Bool
  error : Option String

/-- The error dict _execute_single records for a caught exception:
message is str(e) and type the exception class name. -/
def errVal (e : PyErr) : Value :=
  Value.dict [("message", Value.str e.msg), ("type", Value.str e.ty)]

/-- Python equality of a value against a string literal, as used on
decision.get results. -/
def Value.isStrEq (v : Value) (s : String) : Bool :=
  match v with
  | Value.str t => t == s
  | _ => false

/-- Python dict.update(other) as used on interpolated params with the
decision params: both sides must be dicts (the conventional handler
reply shape; other updating iterables are not modelled) and every entry
of the right side is assigned in order. -/
def pyUpdate (base other : Value) : Except PyErr Value :=
  match base, other with
  | Value.dict bm, Value.dict om =>
    .ok (Value.dict (om.foldl (fun acc kv => dictSet acc kv.1 kv.2) bm))
  | _, _ => .error ⟨"TypeError", "update requires mappings"⟩

/-- The payload _handle_decide and _complete_params publish to
agent.decide: thread id, prompt, current params and the schema object
(the class reference, or None when no schema is registered). -/
def decideData (threadId prompt : String) (params : Value) (schema : Option Schema) : Value :=
  Value.dict [("thread_id", Value.str threadId), ("prompt", Value.str prompt),
    ("params", params),
    ("schema", match schema with | some s => Value.cls s.name | Option.none => Value.null)]

/-- Result of executing one step: the filled-in ChainEventSpec, the bus
and interpolation context after the step, and the event types this step
published (in order, aborted publishes included). -/
structure SingleOut where
  ev : ChainEventSpec
  bus : BusState
  ctx : Value
  calls : List String

/-- Steps 4 of _execute_single: build the event payload (interpolated
params plus the _thread_id and _chain_execution markers — a dict literal
with two extra keys), publish it, record the result and fold it into the
context via add_result. A publish exception or an add_result exception
lands in the except branch and is recorded on the step; the result
assignment precedes add_result, so a step whose add_result raises
carries both a result and an error. Non-dict params make the payload
construction raise. -/
def publishStep (bus : BusState) (ctx : Value) (ce0 : ChainEventSpec) (threadId : String)
    (params : Value) (callsSoFar : List String) : SingleOut :=
  match params with
  | Value.dict pm =>
    let eventData : Value := Value.dict
      (dictSet (dictSet pm "_thread_id" (Value.str threadId)) "_chain_execution" (Value.bool true))
    let o := publish bus ce0.event eventData "system"
    let calls2 := callsSoFar ++ [ce0.event]
    match o.result with
    | .error e =>
      { ev := { ce0 with error := some (errVal e) }, bus := o.bus, ctx := ctx, calls := calls2 }
    | .ok res =>
      match ParameterInterpolator.addResult ctx ce0.event res with
      | .ok ctx2 =>
        { ev := { ce0 with result := some res }, bus := o.bus, ctx := ctx2, calls := calls2 }
      | .error e =>
        { ev := { ce0 with result := some res, error := some (errVal e) },
          bus := o.bus, ctx := ctx, calls := calls2 }
  | _ =>
    { ev := { ce0 with error := some (errVal ⟨"TypeError", "params are not a mapping"⟩) },
      bus := bus, ctx := ctx, calls := callsSoFar }

/-- Step 3 of _execute_single: validate the params by calling the schema
class on them — when get_schema returned None this call itself raises
TypeError (None is not callable) — and on any validation exception run
the single repair attempt of _complete_params: publish agent.decide with
the validation error in the prompt and use the params of its reply
verbatim (falling back to the current params when the reply has none); a
reply that is not a dict raises in the except branch and fails the step,
as does an exception from the repair publish itself. -/
def afterDecide (bus : BusState) (ctx : Value) (ce0 : ChainEventSpec) (threadId : String)
    (schema : Option Schema) (params : Value) (callsSoFar : List String) : SingleOut :=
  let validated : Except PyErr Value :=
    match schema with
    | Option.none => .error ⟨"TypeError", "NoneType object is not callable"⟩
    | some s => s.validate params
  match validated with
  | .ok _ => publishStep bus ctx ce0 threadId params callsSoFar
  | .error e =>
    let o := publish bus "agent.decide"
      (decideData threadId
        ("Correct the following parameters to match the schema. Current error: " ++ e.msg)
        params schema) "system"
    let calls2 := callsSoFar ++ ["agent.decide"]
    match o.result with
    | .error e2 =>
      { ev := { ce0 with error := some (errVal e2) }, bus := o.bus, ctx := ctx, calls := calls2 }
    | .ok decision =>
      match decision with
      | Value.dict dm =>
        publishStep o.bus ctx ce0 threadId ((dictLookup dm "params").getD params) calls2
      | _ =>
        { ev := { ce0 with
            error := some (errVal ⟨"AttributeError", "decision reply has no get"⟩) },
          bus := o.bus, ctx := ctx, calls := calls2 }

/-- EventChainExecutor._execute_single: interpolate the params, look up
the schema, run the decide short-circuit when a prompt is present
(skip fills the result with skipped and reason and returns without
publishing the underlying event; continue merges replacement params),
then validate, publish and record. Every exception raised inside is
caught and recorded as the step error. -/
def executeSingle (bus : BusState) (ctx : Value) (spec : StepSpec) (threadId : String) :
    SingleOut :=
  let ce0 : ChainEventSpec :=
    { event := spec.event, params := spec.params, decide := spec.decide,
      result := Option.none, error := Option.none }
  let interpolated := ParameterInterpolator.interpolate ctx spec.params
  let schema := getSchema bus spec.event
  match spec.decide with
  | Option.none => afterDecide bus ctx ce0 threadId schema interpolated []
  | some prompt =>
    let o := publish bus "agent.decide" (decideData threadId prompt interpolated schema) "system"
    match o.result with
    | .error e =>
      { ev := { ce0 with error := some (errVal e) }, bus := o.bus, ctx := ctx,
        calls := ["agent.decide"] }
    | .ok decision =>
      match decision with
      | Value.dict dm =>
        match dictLookup dm "action" with
        | Option.none =>
          { ev := { ce0 with error := some (errVal ⟨"KeyError", "action"⟩) },
            bus := o.bus, ctx := ctx, calls := ["agent.decide"] }
        | some act =>
          if act.isStrEq "skip" then
            { ev := { ce0 with result := some (Value.dict
                [("skipped", Value.bool true),
                 ("reason", (dictLookup dm "reason").getD Value.null)]) },
              bus := o.bus, ctx := ctx, calls := ["agent.decide"] }
          else
            let params2 : Except PyErr Value :=
              if act.isStrEq "continue" then
                match dictLookup dm "params" with
                | some newParams => pyUpdate interpolated newParams
                | Option.none => .ok interpolated
              else .ok interpolated
            match params2 with
            | .error e =>
              { ev := { ce0 with error := some (errVal e) }, bus := o.bus, ctx := ctx,
                calls := ["agent.decide"] }
            | .ok p2 => afterDecide o.bus ctx ce0 threadId schema p2 ["agent.decide"]
      | _ =>
        { ev := { ce0 with error := some (errVal ⟨"TypeError", "decision is not a mapping"⟩) },
          bus := o.bus, ctx := ctx, calls := ["agent.decide"] }

/-- Result of a parallel group. -/
structure ParOut where
  evs : List ChainEventSpec
  bus : BusState
  ctx : Value
  calls : List String

/-- EventChainExecutor._execute_parallel: every member runs through
_execute_single; gather is modelled as in-order execution (one
admissible cooperative schedule — see the header note). _execute_single
catches every exception of a well-formed step itself, so the
isinstance-Exception branch after gather is not reachable in the
embedding. -/
def execParallel (bus : BusState) (ctx : Value) (specs : List StepSpec) (threadId : String) :
    ParOut :=
  match specs with
  | [] => { evs := [], bus := bus, ctx := ctx, calls := [] }
  | s :: rest =>
    let o := executeSingle bus ctx s threadId
    let r := execParallel o.bus o.ctx rest threadId
    { evs := o.ev :: r.evs, bus := r.bus, ctx := r.ctx, calls := o.calls ++ r.calls }

/-- Result of the chain loop. -/
structure ItemsOut where
  evs : List ChainEventSpec
  success : Bool
  error : Option String
  bus : BusState
  ctx : Value
  calls : List String

/-- The message field of a step error dict, as read by the f-string of
execute_chain (the dict always carries a string message). -/
def errMessageOf (v : Value) : String :=
  match v with
  | Value.dict m =>
    match dictLookup m "message" with
    | some (Value.str s) => s
    | _ => ""
  | _ => ""

/-- The chain loop of execute_chain: a parallel group contributes all its
member events and execution continues regardless of member errors (no
error check exists on the parallel branch); a sequential step whose
record carries an error stops the run with success False and the
formatted error message; otherwise its event is appended and the loop
continues. -/
def execItems (bus : BusState) (ctx : Value) (items : List ChainItem) (threadId : String) :
    ItemsOut :=
  match items with
  | [] =>
    { evs := [], success := true, error := Option.none, bus := bus, ctx := ctx, calls := [] }
  | ChainItem.par specs :: rest =>
    let p := execParallel bus ctx specs threadId
    let r := execItems p.bus p.ctx rest threadId
    { evs := p.evs ++ r.evs, success := r.success, error := r.error, bus := r.bus,
      ctx := r.ctx, calls := p.calls ++ r.calls }
  | ChainItem.single spec :: rest =>
    let o := executeSingle bus ctx spec threadId
    match o.ev.error with
    | some err =>
      { evs := [o.ev], success := false,
        error := some ("Event " ++ spec.event ++ " failed: " ++ errMessageOf err),
        bus := o.bus, ctx := o.ctx, calls := o.calls }
    | Option.none =>
      let r := execItems o.bus o.ctx rest threadId
      { evs := o.ev :: r.evs, success := r.success, error := r.error, bus := r.bus,
        ctx := r.ctx, calls := o.calls ++ r.calls }

/-- Process state seen by the executor: the bus and the thread store. -/
structure ExecState where
  bus : BusState
  threads : Threads

/-- EventChainExecutor.execute_chain: load the thread context when the
thread exists (an exception from get_context escapes, since it is raised
before the try block), create the interpolator owning that context, run
the chain loop and shape the EventChainResult. The thread store is
returned unchanged: no code path of the executor writes to it. -/
def executeChain (st : ExecState) (chain : List ChainItem) (threadId : String) :
    Except PyErr (EventChainResult × ExecState) :=
  let ctxE : Except PyErr Value :=
    match alookup st.threads threadId with
    | some t => t.getContext
    | Option.none => .ok (Value.dict [])
  match ctxE with
  | .error e => .error e
  | .ok ctx =>
    let r := execItems st.bus ctx chain threadId
    .ok ({ threadId := threadId, events := r.evs, success := r.success, error := r.error },
         { bus := r.bus, threads := st.threads })

/-! ## General lemmas about the embedded operations -/

theorem publish_eq_core {bus : BusState} {n : String} {d d' : Value} {src : String}
    (h : validationOf bus n d = .ok d') :
    publish bus n d src = publishCore bus n d' src := by
  unfold publish
  rw [h]

theorem dictSet_of_not_mem {α : Type} {m : List (String × α)} {k : String} {v : α}
    (h : k ∉ keysOf m) : dictSet m k v = m ++ [(k, v)] := by
  induction m with
  | nil => rfl
  | cons kv rest ih =>
    simp [keysOf] at h
    obtain ⟨h1, h2⟩ := h
    simp [dictSet, Ne.symm h1]
    exact ih (by simp [keysOf]; exact h2)

theorem collectResults_of_nodup (ev : Event) :
    ∀ (hs : List Handler) (acc : List (String × Value)),
      (hs.map Handler.name).Nodup → (∀ h ∈ hs, h.name ∉ keysOf acc) →
      collectResults ev hs acc = acc ++ hs.map (fun h => (h.name, handlerOutcome ev h)) := by
  intro hs
  induction hs with
  | nil => intro acc _ _; simp [collectResults]
  | cons h t ih =>
    intro acc hnd hdisj
    have hnd' : (t.map Handler.name).Nodup := (List.nodup_cons.mp hnd).2
    have hh : h.name ∉ keysOf acc := hdisj h (by simp)
    have hdisj' : ∀ h2 ∈ t, h2.name ∉ keysOf (acc ++ [(h.name, handlerOutcome ev h)]) := by
      intro h2 hmem hk
      rw [show keysOf (acc ++ [(h.name, handlerOutcome ev h)]) = keysOf acc ++ [h.name] by
        simp [keysOf]] at hk
      rcases List.mem_append.mp hk with hik | hik
      · exact hdisj h2 (List.mem_cons_of_mem _ hmem) hik
      · have hik2 : h2.name = h.name := by simpa using hik
        have : h.name ∈ t.map Handler.name := by
          rw [← hik2]; exact List.mem_map_of_mem Handler.name hmem
        exact (List.nodup_cons.mp hnd).1 this
    rw [collectResults, dictSet_of_not_mem hh, ih _ hnd' hdisj']
    simp

theorem alookup_map_name {hs : List Handler} {f : Handler → Value} {h : Handler}
    (hnd : (hs.map Handler.name).Nodup) (hm : h ∈ hs) :
    alookup (hs.map fun x => (x.name, f x)) h.name = some (f h) := by
  induction hs with
  | nil => cases hm
  | cons a t ih =>
    rcases List.mem_cons.mp hm with heq | hmem
    · subst heq
      simp [alookup]
    · have hne : a.name ≠ h.name := by
        intro hk
        have : a.name ∈ t.map Handler.name := by
          rw [hk]; exact List.mem_map_of_mem Handler.name hmem
        exact (List.nodup_cons.mp hnd).1 this
      simp [alookup, hne]
      exact ih (List.nodup_cons.mp hnd).2 hmem

/-! ## Claim C3: schema validation failure aborts publish atomically -/

/-- Claim C3: when the published name has a registered schema and the
payload fails its validation, publish raises the validation error, no
subscribed handler is invoked and the bus state — in particular its
event history — is exactly what it was before the call. -/
theorem publish_validation_failure_is_atomic (bus : BusState) (n : String) (d : Value)
    (src : String) (s : Schema) (e : PyErr)
    (hs : alookup bus.schemas n = some s) (hv : s.validate d = .error e) :
    (publish bus n d src).result = .error e ∧
    (publish bus n d src).bus = bus ∧
    (publish bus n d src).bus.history = bus.history ∧
    (publish bus n d src).invoked = [] := by
  have hval : validationOf bus n d = .error e := by
    simp [validationOf, hs, hv]
  unfold publish
  rw [hval]
  exact ⟨rfl, rfl, rfl, rfl⟩

/-- A schema that rejects every payload, for the witness. -/
def rejectingSchema : Schema := ⟨"RejectAll", fun _ => .error ⟨"ValidationError", "bad payload"⟩⟩

/-- A bus with one subscriber and the rejecting schema on event w.v, and
one event already in the history. -/
def c3bus : BusState :=
  { handlers := [("w.v", [⟨"on_wv", fun _ => .ok (Value.str "ran")⟩])],
    schemas := [("w.v", rejectingSchema)],
    history := [{ type := "boot", data := Value.null, source := "system" }],
    maxHistorySize := 1000 }

theorem publish_validation_failure_is_atomic_witness :
    (publish c3bus "w.v" (Value.int 7) "cli").result = .error ⟨"ValidationError", "bad payload"⟩ ∧
    (publish c3bus "w.v" (Value.int 7) "cli").bus = c3bus ∧
    (publish c3bus "w.v" (Value.int 7) "cli").bus.history = c3bus.history ∧
    (publish c3bus "w.v" (Value.int 7) "cli").invoked = [] :=
  publish_validation_failure_is_atomic c3bus "w.v" (Value.int 7) "cli" rejectingSchema
    ⟨"ValidationError", "bad payload"⟩ rfl rfl

/-! ## Claim C6: the bounded history invariant -/

theorem takeLast_of_le {α : Type} {n : Nat} {l : List α} (h : l.length ≤ n) :
    takeLast n l = l := by
  unfold takeLast
  have : l.length - n = 0 := by omega
  rw [this, List.drop_zero]

theorem length_takeLast {α : Type} (n : Nat) (l : List α) :
    (takeLast n l).length = l.length - (l.length - n) := by
  unfold takeLast
  rw [List.length_drop]

theorem boundedAppend_eq_takeLast {max : Nat} {h : List Event} {e : Event}
    (hle : h.length ≤ max) :
    boundedAppend max h e = takeLast max (h ++ [e]) := by
  unfold boundedAppend takeLast
  simp only [List.length_append, List.length_cons, List.length_nil]
  split
  · next hgt =>
    congr 1
    omega
  · next hng =>
    have : h.length + 1 - max = 0 := by omega
    rw [this, List.drop_zero]

theorem takeLast_append_left {α : Type} (n : Nat) (a b : List α) :
    takeLast n (takeLast n a ++ b) = takeLast n (a ++ b) := by
  rcases le_or_lt a.length n with hle | hgt
  · rw [takeLast_of_le hle]
  · unfold takeLast
    have hk : a.length - n ≤ a.length := by omega
    rw [← List.drop_append_of_le_length hk, List.drop_drop]
    congr 1
    simp only [List.length_append, List.length_drop]
    omega

theorem publish_history_of_event {bus : BusState} {r : PublishReq} {e : Event}
    (h : publishedEvent bus r = some e) :
    (publish bus r.eventType r.data r.source).bus.history
      = boundedAppend bus.maxHistorySize bus.history e := by
  unfold publishedEvent at h
  unfold publish
  cases hv : validationOf bus r.eventType r.data with
  | error e2 => rw [hv] at h; simp at h
  | ok validated =>
    rw [hv] at h
    simp at h
    subst h
    rfl

theorem publish_history_of_abort {bus : BusState} {r : PublishReq}
    (h : publishedEvent bus r = Option.none) :
    (publish bus r.eventType r.data r.source).bus.history = bus.history := by
  unfold publishedEvent at h
  unfold publish
  cases hv : validationOf bus r.eventType r.data with
  | error e2 => rfl
  | ok validated => rw [hv] at h; simp at h

theorem publish_maxHistorySize (bus : BusState) (r : PublishReq) :
    (publish bus r.eventType r.data r.source).bus.maxHistorySize = bus.maxHistorySize := by
  unfold publish
  cases hv : validationOf bus r.eventType r.data with
  | error e2 => rfl
  | ok validated => rfl

theorem publishSeq_history :
    ∀ (reqs : List PublishReq) (bus : BusState),
      bus.history.length ≤ bus.maxHistorySize →
      (publishSeq bus reqs).history
          = takeLast bus.maxHistorySize (bus.history ++ producedEvents bus reqs) ∧
      (publishSeq bus reqs).maxHistorySize = bus.maxHistorySize := by
  intro reqs
  induction reqs with
  | nil =>
    intro bus hb
    refine ⟨?_, rfl⟩
    simp only [publishSeq, producedEvents, List.append_nil]
    exact (takeLast_of_le hb).symm
  | cons r rs ih =>
    intro bus hb
    have hmax := publish_maxHistorySize bus r
    cases hpe : publishedEvent bus r with
    | none =>
      have hhist := publish_history_of_abort hpe
      have hinv : (publish bus r.eventType r.data r.source).bus.history.length
          ≤ (publish bus r.eventType r.data r.source).bus.maxHistorySize := by
        rw [hhist, hmax]; exact hb
      obtain ⟨ih1, ih2⟩ := ih _ hinv
      refine ⟨?_, ?_⟩
      · simp only [publishSeq]
        rw [ih1, hhist, hmax]
        simp only [producedEvents, hpe, Option.toList, List.nil_append]
      · simp only [publishSeq]
        rw [ih2, hmax]
    | some e =>
      have hhist := publish_history_of_event hpe
      have hinv : (publish bus r.eventType r.data r.source).bus.history.length
          ≤ (publish bus r.eventType r.data r.source).bus.maxHistorySize := by
        rw [hhist, hmax, boundedAppend_eq_takeLast hb, length_takeLast]
        omega
      obtain ⟨ih1, ih2⟩ := ih _ hinv
      refine ⟨?_, ?_⟩
      · simp only [publishSeq]
        rw [ih1, hhist, hmax, boundedAppend_eq_takeLast hb, takeLast_append_left]
        simp only [producedEvents, hpe, Option.toList]
        simp [List.append_assoc]
      · simp only [publishSeq]
        rw [ih2, hmax]

/-- Claim C6: starting from a fresh bus with cap max_history_size
(source default 1000), after any publish sequence whose non-aborted
publishes produced more than cap events, the history holds exactly the
last cap produced events: its length is cap, the oldest events have been
evicted first, and the remaining events keep their publish order. -/
theorem history_bounded_oldest_first (cap : Nat) (reqs : List PublishReq)
    (hN : cap < (producedEvents (newBus cap) reqs).length) :
    (publishSeq (newBus cap) reqs).history
      = (producedEvents (newBus cap) reqs).drop
          ((producedEvents (newBus cap) reqs).length - cap) ∧
    (publishSeq (newBus cap) reqs).history.length = cap ∧
    (newBus defaultMaxHistorySize).maxHistorySize = 1000 := by
  obtain ⟨h1, _⟩ := publishSeq_history reqs (newBus cap) (by simp [newBus])
  have hm : (newBus cap).maxHistorySize = cap := rfl
  have hb : (newBus cap).history = [] := rfl
  rw [hb, List.nil_append, hm] at h1
  refine ⟨?_, ?_, rfl⟩
  · rw [h1]; rfl
  · rw [h1, length_takeLast]
    omega

/-- Three publish requests, for the history-bound witness. -/
def c6reqs : List PublishReq :=
  [⟨"a.one", Value.int 1, "s"⟩, ⟨"b.two", Value.int 2, "s"⟩, ⟨"c.three", Value.int 3, "s"⟩]

theorem history_bounded_oldest_first_witness :
    2 < (producedEvents (newBus 2) c6reqs).length ∧
    (publishSeq (newBus 2) c6reqs).history.length = 2 ∧
    (publishSeq (newBus 2) c6reqs).history
      = (producedEvents (newBus 2) c6reqs).drop 1 := by
  have h := history_bounded_oldest_first 2 c6reqs (by decide)
  refine ⟨by decide, h.2.1, ?_⟩
  have h1 := h.1
  simpa using h1

/-! ## Claims C4 and C5: the shape of the publish return value -/

/-- Claim C4 (amended): for a publish not aborted by validation, zero
subscribed handlers give an empty dict, exactly one subscribed handler
gives its own return value unwrapped, and two or more subscribed
handlers give a dict keyed by handler name with one entry per handler —
provided the subscribed handlers have pairwise distinct function names.
Handlers are keyed by their function name, not their identity, so
handlers sharing a name collapse into a single map entry (the later
result overwriting the earlier), and when only one name survives the
single surviving entry is returned unwrapped. -/
theorem publish_return_shape (bus : BusState) (n : String) (d d' : Value) (src : String)
    (hval : validationOf bus n d = .ok d') :
    (handlersFor bus n = [] → (publish bus n d src).result = .ok (Value.dict [])) ∧
    (∀ (h : Handler) (v : Value), handlersFor bus n = [h] →
      h.run { type := n, data := d', source := src } = .ok v →
      (publish bus n d src).result = .ok v) ∧
    (2 ≤ (handlersFor bus n).length → ((handlersFor bus n).map Handler.name).Nodup →
      (publish bus n d src).result = .ok (Value.dict ((handlersFor bus n).map
        fun h => (h.name, handlerOutcome { type := n, data := d', source := src } h)))) := by
  rw [publish_eq_core hval]
  unfold publishCore
  refine ⟨?_, ?_, ?_⟩
  · intro h0
    rw [h0]
    rfl
  · intro h v h1 hrun
    rw [h1]
    simp only [collectResults, dictSet]
    unfold handlerOutcome
    rw [hrun]
  · intro hlen hnd
    dsimp only
    rw [collectResults_of_nodup _ _ [] hnd (by intro h _ hk; simp [keysOf] at hk)]
    simp only [List.nil_append]
    rcases hhs : handlersFor bus n with _ | ⟨a, _ | ⟨b, t⟩⟩
    · rw [hhs] at hlen; simp at hlen
    · rw [hhs] at hlen; simp at hlen
    · rfl

/-- Two distinct handler functions that share the function name h, both
succeeding — the scenario that falsifies the unamended claim C4. -/
def c4bus : BusState :=
  { handlers := [("e.v", [⟨"h", fun _ => .ok (Value.str "r1")⟩,
                          ⟨"h", fun _ => .ok (Value.str "r2")⟩])],
    schemas := [], history := [], maxHistorySize := 1000 }

/-- Counterexample to claim C4 as stated: two handlers are subscribed to
e.v, yet publish does not return a two-entry map keyed by handler
identity — both results land under the shared name key, the second
overwrites the first, and the single surviving entry is returned
unwrapped, so the call returns the plain string r2 (not a map at all)
and the first handler result r1 is lost. -/
theorem publish_return_shape_counterexample :
    (handlersFor c4bus "e.v").length = 2 ∧
    (publish c4bus "e.v" (Value.dict []) "system").result = .ok (Value.str "r2") ∧
    Value.isDict (Value.str "r2") = false :=
  ⟨rfl, rfl, rfl⟩

/-- A bus with two distinctly named succeeding handlers, for the C4
witness. -/
def c4busW : BusState :=
  { handlers := [("e.v", [⟨"h1", fun _ => .ok (Value.str "r1")⟩,
                          ⟨"h2", fun _ => .ok (Value.str "r2")⟩])],
    schemas := [], history := [], maxHistorySize := 1000 }

theorem publish_return_shape_witness :
    (publish c4busW "e.v" (Value.dict []) "system").result
      = .ok (Value.dict [("h1", Value.str "r1"), ("h2", Value.str "r2")]) := by
  have h := (publish_return_shape c4busW "e.v" (Value.dict []) (Value.dict []) "system"
    rfl).2.2 (by decide) (by decide)
  simpa using h

/-- Claim C5 (amended): with two or more subscribed handlers of pairwise
distinct function names, a raising handler never aborts the publish or
its siblings: publish returns the result map, the succeeding handler
result appears unchanged under its own name key, and the failing handler
appears only as an error dict carrying str(exception) under its own name
key. Handlers are keyed by function name, so the isolation of the result
map holds only under distinct names. -/
theorem publish_handler_isolation (bus : BusState) (n : String) (d d' : Value) (src : String)
    (hval : validationOf bus n d = .ok d')
    (hnd : ((handlersFor bus n).map Handler.name).Nodup)
    (hlen : 2 ≤ (handlersFor bus n).length)
    (hfail hok : Handler) (e : PyErr) (v : Value)
    (hm1 : hfail ∈ handlersFor bus n) (hm2 : hok ∈ handlersFor bus n)
    (hr1 : hfail.run { type := n, data := d', source := src } = .error e)
    (hr2 : hok.run { type := n, data := d', source := src } = .ok v) :
    (publish bus n d src).result = .ok (Value.dict ((handlersFor bus n).map
      fun h => (h.name, handlerOutcome { type := n, data := d', source := src } h))) ∧
    dictLookup ((handlersFor bus n).map
      fun h => (h.name, handlerOutcome { type := n, data := d', source := src } h)) hok.name
      = some v ∧
    dictLookup ((handlersFor bus n).map
      fun h => (h.name, handlerOutcome { type := n, data := d', source := src } h)) hfail.name
      = some (Value.dict [("error", Value.str e.msg)]) := by
  refine ⟨(publish_return_shape bus n d d' src hval).2.2 hlen hnd, ?_, ?_⟩
  · rw [show (v = handlerOutcome { type := n, data := d', source := src } hok) by
      unfold handlerOutcome; rw [hr2]]
    exact alookup_map_name hnd hm2
  · rw [show (Value.dict [("error", Value.str e.msg)]
        = handlerOutcome { type := n, data := d', source := src } hfail) by
      unfold handlerOutcome; rw [hr1]]
    exact alookup_map_name hnd hm1

/-- Two handler functions sharing the name h, the first raising and the
second succeeding — the scenario that falsifies the unamended claim
C5. -/
def c5bus : BusState :=
  { handlers := [("e.w", [⟨"h", fun _ => .error ⟨"ValueError", "boom"⟩⟩,
                          ⟨"h", fun _ => .ok (Value.str "fine")⟩])],
    schemas := [], history := [], maxHistorySize := 1000 }

/-- The event c5bus publishes for e.w with an empty payload. -/
def c5event : Event :=
  { type := "e.w",
    data := Value.dict [("_ignored", Value.null)],
    source := "system" }

/-- Counterexample to claim C5 as stated: two handlers subscribed under
the same function name, the first raising and the second succeeding;
publish returns the succeeding value unwrapped rather than a map, so the
succeeding result does not appear under its own key and the failing
handler does not appear as an error entry under its own key at all (its
error dict was overwritten in the name-keyed result map). -/
theorem publish_handler_isolation_counterexample :
    (handlersFor c5bus "e.w").length = 2 ∧
    ((handlersFor c5bus "e.w").map fun h => h.run c5event)
      = [.error ⟨"ValueError", "boom"⟩, .ok (Value.str "fine")] ∧
    (publish c5bus "e.w" (Value.dict []) "system").result = .ok (Value.str "fine") ∧
    Value.isDict (Value.str "fine") = false :=
  ⟨rfl, rfl, rfl, rfl⟩

/-- A bus with distinctly named handlers, one raising and one
succeeding, for the C5 witness. -/
def c5busW : BusState :=
  { handlers := [("e.w", [⟨"h1", fun _ => .error ⟨"ValueError", "boom"⟩⟩,
                          ⟨"h2", fun _ => .ok (Value.str "fine")⟩])],
    schemas := [], history := [], maxHistorySize := 1000 }

theorem publish_handler_isolation_witness :
    (publish c5busW "e.w" (Value.dict []) "system").result
      = .ok (Value.dict [("h1", Value.dict [("error", Value.str "boom")]),
                         ("h2", Value.str "fine")]) ∧
    dictLookup [("h1", Value.dict [("error", Value.str "boom")]), ("h2", Value.str "fine")] "h2"
      = some (Value.str "fine") ∧
    dictLookup [("h1", Value.dict [("error", Value.str "boom")]), ("h2", Value.str "fine")] "h1"
      = some (Value.dict [("error", Value.str "boom")]) := by
  have h := publish_handler_isolation c5busW "e.w" (Value.dict []) (Value.dict []) "system"
    rfl (by decide) (by decide)
    ⟨"h1", fun _ => .error ⟨"ValueError", "boom"⟩⟩
    ⟨"h2", fun _ => .ok (Value.str "fine")⟩
    ⟨"ValueError", "boom"⟩ (Value.str "fine")
    (by simp [handlersFor, c5busW, alookup]) (by simp [handlersFor, c5busW, alookup])
    rfl rfl
  obtain ⟨h1, h2, h3⟩ := h
  exact ⟨by simpa using h1, by simpa using h2, by simpa using h3⟩

/-! ## Claim C1: a failing parallel member does not stop the run -/

theorem execParallel_length :
    ∀ (specs : List StepSpec) (bus : BusState) (ctx : Value) (tid : String),
      (execParallel bus ctx specs tid).evs.length = specs.length := by
  intro specs
  induction specs with
  | nil => intro bus ctx tid; rfl
  | cons s rest ih =>
    intro bus ctx tid
    unfold execParallel
    dsimp only
    simp [ih]

/-- Claim C1 (amended): a parallel group always executes and records a
result record for every member — a member failure is captured on that
member record only — but the run does not stop after the group: the loop
carries no error check on the parallel branch, so execution continues
with the remaining chain items and the success flag and error of the run
are exactly those of the remaining items, unaffected by parallel member
failures. -/
theorem parallel_member_failure_does_not_stop_run (bus : BusState) (ctx : Value)
    (specs : List StepSpec) (rest : List ChainItem) (tid : String) :
    ((execItems bus ctx (ChainItem.par specs :: rest) tid).evs
      = (execParallel bus ctx specs tid).evs
        ++ (execItems (execParallel bus ctx specs tid).bus
              (execParallel bus ctx specs tid).ctx rest tid).evs) ∧
    ((execItems bus ctx (ChainItem.par specs :: rest) tid).success
      = (execItems (execParallel bus ctx specs tid).bus
          (execParallel bus ctx specs tid).ctx rest tid).success) ∧
    ((execItems bus ctx (ChainItem.par specs :: rest) tid).error
      = (execItems (execParallel bus ctx specs tid).bus
          (execParallel bus ctx specs tid).ctx rest tid).error) ∧
    (execParallel bus ctx specs tid).evs.length = specs.length :=
  ⟨rfl, rfl, rfl, execParallel_length specs bus ctx tid⟩

/-- A schema that accepts every payload unchanged. -/
def acceptingSchema (n : String) : Schema := ⟨n, fun v => .ok v⟩

/-- A handler returning a constant value. -/
def constHandler (nm : String) (v : Value) : Handler := ⟨nm, fun _ => .ok v⟩

/-- Bus for the C1 counterexample: three events with accepting schemas
and handlers, and one event whose schema rejects every payload, so that
its step records a step error. -/
def c1bus : BusState :=
  { handlers := [("ok.a", [constHandler "ha" (Value.str "ra")]),
                 ("ok.a2", [constHandler "ha2" (Value.str "ra2")]),
                 ("ok.c", [constHandler "hc" (Value.str "rc")])],
    schemas := [("ok.a", acceptingSchema "A"), ("ok.a2", acceptingSchema "A2"),
                ("ok.c", acceptingSchema "C"),
                ("bad.b", ⟨"B", fun _ => .error ⟨"ValidationError", "bad payload"⟩⟩)],
    history := [], maxHistorySize := 1000 }

/-- A three-member parallel group whose first member fails, followed by a
sequential step. -/
def c1chain : List ChainItem :=
  [ChainItem.par [⟨"bad.b", Value.dict [], Option.none⟩, ⟨"ok.a", Value.dict [], Option.none⟩,
                  ⟨"ok.a2", Value.dict [], Option.none⟩],
   ChainItem.single ⟨"ok.c", Value.dict [], Option.none⟩]

/-- The result of running the C1 chain (the thread t1 does not exist, so
the run starts from an empty context). -/
def c1result : EventChainResult :=
  match executeChain ⟨c1bus, []⟩ c1chain "t1" with
  | .ok (r, _) => r
  | .error _ => { threadId := "", events := [], success := false, error := Option.none }

/-- Counterexample to claim C1 as stated: in this run a parallel member
fails (its record carries an error) and its two siblings execute and
record results, but the run does not stop after the group — the
following sequential step also executes (four events in total) — and the
returned result has success true, where the claim requires success
false. -/
theorem parallel_member_failure_counterexample :
    c1result.success = true ∧
    c1result.events.length = 4 ∧
    ((c1result.events.get? 0).bind ChainEventSpec.error).isSome = true ∧
    ((c1result.events.get? 1).bind ChainEventSpec.result).isSome = true ∧
    ((c1result.events.get? 2).bind ChainEventSpec.result).isSome = true ∧
    ((c1result.events.get? 3).bind ChainEventSpec.result).isSome = true := by
  decide

/-! ## Claim C2: the executor and the thread event log -/

/-- The thread-context load at the top of execute_chain: the context view
of an existing thread, or an empty dict. -/
def threadContext (threads : Threads) (threadId : String) : Except PyErr Value :=
  match alookup threads threadId with
  | some t => t.getContext
  | Option.none => .ok (Value.dict [])

/-- Claim C2 (amended): a chain run never modifies the thread store — the
executor folds step results only into the run-private interpolation
context and never appends the produced events to the thread, so after
any number of runs the thread event log is exactly what it was before
(in particular no earlier entry changes). -/
theorem executor_never_writes_thread_store (st : ExecState) (chain : List ChainItem)
    (tid : String) (r : EventChainResult) (st2 : ExecState)
    (h : executeChain st chain tid = .ok (r, st2)) :
    st2.threads = st.threads := by
  unfold executeChain at h
  cases hx : (match alookup st.threads tid with
              | some t => t.getContext
              | Option.none => Except.ok (Value.dict [])) with
  | error e => rw [hx] at h; simp at h
  | ok ctx =>
    rw [hx] at h
    simp at h
    obtain ⟨_, h2⟩ := h
    rw [← h2]

/-- Bus and thread store for the C2 scenario: one existing thread t1 with
an empty event log, and one schema-validated event with a handler. -/
def c2bus : BusState :=
  { handlers := [("tools.now", [constHandler "now" (Value.str "2025-01-15T10:30:00Z")])],
    schemas := [("tools.now", acceptingSchema "Now")],
    history := [], maxHistorySize := 1000 }

/-- The existing thread the C2 chain runs against. -/
def c2thread : Thread :=
  { threadId := "t1", summary := "a thread", status := "active", events := [],
    metadata := Value.dict [] }

/-- The executor state for the C2 scenario. -/
def c2st : ExecState := { bus := c2bus, threads := [("t1", c2thread)] }

/-- The run of one successful tools.now step against thread t1. -/
def c2pair : EventChainResult × ExecState :=
  match executeChain c2st [ChainItem.single ⟨"tools.now", Value.dict [], Option.none⟩] "t1" with
  | .ok p => p
  | .error _ => ({ threadId := "", events := [], success := false, error := Option.none }, c2st)

/-- Counterexample to claim C2 as stated: a run with one successfully
executed step (success true, one produced event carrying a result)
leaves the event log of thread t1 at length zero, not zero plus one: the
executor never appends the step event to the thread. -/
theorem thread_append_counterexample :
    c2pair.1.success = true ∧
    c2pair.1.events.length = 1 ∧
    ((c2pair.1.events.get? 0).bind ChainEventSpec.result).isSome = true ∧
    ((alookup c2st.threads "t1").map fun t => t.events.length) = some 0 ∧
    ((alookup c2pair.2.threads "t1").map fun t => t.events.length) = some 0 := by
  decide

theorem executor_never_writes_thread_store_witness :
    c2pair.2.threads = c2st.threads :=
  executor_never_writes_thread_store c2st
    [ChainItem.single ⟨"tools.now", Value.dict [], Option.none⟩] "t1"
    c2pair.1 c2pair.2 rfl

/-! ## Claim C9: the decide-skip short circuit -/

/-- Claim C9: a step whose decide prompt is answered with action skip and
a reason never publishes its underlying event (the only publish the step
makes is the agent.decide call), records the skipped result with the
reason and no error on its record, leaves the context untouched, and the
run proceeds to the remaining chain items. -/
theorem decide_skip_short_circuit (bus : BusState) (ctx : Value) (ev pr tid : String)
    (params : Value) (rest : List ChainItem) (dm : List (String × Value)) (r : Value)
    (hpub : (publish bus "agent.decide"
        (decideData tid pr (ParameterInterpolator.interpolate ctx params) (getSchema bus ev))
        "system").result = .ok (Value.dict dm))
    (hact : dictLookup dm "action" = some (Value.str "skip"))
    (hreason : dictLookup dm "reason" = some r) :
    ((executeSingle bus ctx ⟨ev, params, some pr⟩ tid).ev.result
      = some (Value.dict [("skipped", Value.bool true), ("reason", r)])) ∧
    (executeSingle bus ctx ⟨ev, params, some pr⟩ tid).ev.error = Option.none ∧
    (executeSingle bus ctx ⟨ev, params, some pr⟩ tid).calls = ["agent.decide"] ∧
    (executeSingle bus ctx ⟨ev, params, some pr⟩ tid).ctx = ctx ∧
    ((execItems bus ctx (ChainItem.single ⟨ev, params, some pr⟩ :: rest) tid).evs
      = (executeSingle bus ctx ⟨ev, params, some pr⟩ tid).ev
          :: (execItems (executeSingle bus ctx ⟨ev, params, some pr⟩ tid).bus
                (executeSingle bus ctx ⟨ev, params, some pr⟩ tid).ctx rest tid).evs) ∧
    ((execItems bus ctx (ChainItem.single ⟨ev, params, some pr⟩ :: rest) tid).success
      = (execItems (executeSingle bus ctx ⟨ev, params, some pr⟩ tid).bus
          (executeSingle bus ctx ⟨ev, params, some pr⟩ tid).ctx rest tid).success) := by
  have hso : executeSingle bus ctx ⟨ev, params, some pr⟩ tid
      = { ev := { event := ev, params := params, decide := some pr,
                  result := some (Value.dict
                    [("skipped", Value.bool true), ("reason", r)]),
                  error := Option.none },
          bus := (publish bus "agent.decide"
            (decideData tid pr (ParameterInterpolator.interpolate ctx params)
              (getSchema bus ev)) "system").bus,
          ctx := ctx, calls := ["agent.decide"] } := by
    unfold executeSingle
    dsimp only
    simp only [hpub, hact, hreason, Value.isStrEq, beq_self_eq_true, if_true, Option.getD]
  refine ⟨by rw [hso], by rw [hso], by rw [hso], by rw [hso], ?_, ?_⟩
  · simp only [execItems, hso]
  · simp only [execItems, hso]

/-- Bus for the C9 witness: the single agent.decide handler answers skip
with reason x. -/
def c9bus : BusState :=
  { handlers := [("agent.decide", [⟨"agent_decide", fun _ => .ok (Value.dict
      [("action", Value.str "skip"), ("reason", Value.str "x")])⟩])],
    schemas := [], history := [], maxHistorySize := 1000 }

theorem decide_skip_short_circuit_witness :
    ((executeSingle c9bus (Value.dict [])
        ⟨"user.create", Value.dict [], some "Create the user now"⟩ "t").ev.result
      = some (Value.dict [("skipped", Value.bool true), ("reason", Value.str "x")])) ∧
    (executeSingle c9bus (Value.dict [])
        ⟨"user.create", Value.dict [], some "Create the user now"⟩ "t").calls
      = ["agent.decide"] ∧
    (executeSingle c9bus (Value.dict [])
        ⟨"user.create", Value.dict [], some "Create the user now"⟩ "t").ev.error
      = Option.none := by
  have h := decide_skip_short_circuit c9bus (Value.dict []) "user.create"
    "Create the user now" "t" (Value.dict []) []
    [("action", Value.str "skip"), ("reason", Value.str "x")] (Value.str "x") rfl rfl rfl
  exact ⟨h.1, h.2.2.1, h.2.1⟩

/-! ## Claim C10: per-step validation with no registered schema -/

theorem publishStep_calls (bus : BusState) (ctx : Value) (ce0 : ChainEventSpec) (tid : String)
    (pm : List (String × Value)) (cs : List String) :
    (publishStep bus ctx ce0 tid (Value.dict pm) cs).calls = cs ++ [ce0.event] := by
  unfold publishStep
  dsimp only
  split
  · rfl
  · split <;> rfl

/-- Claim C10: a sequential step whose target event has no schema
registered on the bus and which carries no decide prompt always fails
its own validation attempt — calling the None returned by get_schema
raises — so the executor publishes exactly one agent.decide repair call
and then publishes the step event, in that order, regardless of how
well-formed the interpolated params are. -/
theorem missing_schema_triggers_repair (bus : BusState) (ctx : Value) (ev tid : String)
    (params : Value) (dm pm : List (String × Value))
    (hschema : getSchema bus ev = Option.none)
    (hpub : (publish bus "agent.decide"
        (decideData tid ("Correct the following parameters to match the schema. Current error: "
            ++ "NoneType object is not callable")
          (ParameterInterpolator.interpolate ctx params) Option.none) "system").result
        = .ok (Value.dict dm))
    (hparams : (dictLookup dm "params").getD (ParameterInterpolator.interpolate ctx params)
        = Value.dict pm) :
    (executeSingle bus ctx ⟨ev, params, Option.none⟩ tid).calls = ["agent.decide", ev] := by
  unfold executeSingle
  dsimp only
  rw [hschema]
  unfold afterDecide
  dsimp only
  simp only [hpub, hparams]
  rw [publishStep_calls]
  simp

/-- Well-formed params for the C10 witness. -/
def c10params : Value := Value.dict [("a", Value.int 1)]

theorem missing_schema_triggers_repair_witness :
    (executeSingle (newBus 1000) (Value.dict []) ⟨"tools.x", c10params, Option.none⟩ "t").calls
      = ["agent.decide", "tools.x"] :=
  missing_schema_triggers_repair (newBus 1000) (Value.dict []) "tools.x" "t" c10params
    [] [("a", Value.int 1)] rfl rfl rfl

/-! ## Claims C7 and C8: the interpolation language -/

open ParameterInterpolator

/-- A character that is neither an opening nor a closing brace. -/
def bfChar (c : Char) : Bool := !(c == '{') && !(c == '}')

/-- A character list without braces (such text is literal under the
interpolation pattern). -/
def braceFree (l : List Char) : Bool := l.all bfChar

/-- A string without braces. -/
def braceFreeStr (s : String) : Bool := braceFree s.data

/-- Literal text prepended to a token list, skipping empty text — the
shape of the token lists produced by the scanner. -/
def appendLitTok (l : List Char) (ts : List Tok) : List Tok :=
  if l.isEmpty then ts else Tok.lit (String.mk l) :: ts

theorem bfChar_spec {c : Char} (h : bfChar c = true) : c ≠ '{' ∧ c ≠ '}' := by
  unfold bfChar at h
  constructor
  · intro he; subst he; simp at h
  · intro he; subst he; simp at h

theorem tokenizeAux_litPrefix :
    ∀ {a : List Char}, braceFree a = true →
      ∀ (acc cs : List Char),
        tokenizeAux acc Option.none (a ++ cs) = tokenizeAux (a.reverse ++ acc) Option.none cs := by
  intro a
  induction a with
  | nil => intro _ acc cs; simp
  | cons c t ih =>
    intro hbf acc cs
    have hc := bfChar_spec (by simp [braceFree] at hbf; exact hbf.1)
    have ht : braceFree t = true := by simp [braceFree] at hbf ⊢; exact hbf.2
    show tokenizeAux acc Option.none (c :: (t ++ cs)) = _
    rw [tokenizeAux]
    simp only [if_neg hc.1]
    rw [ih ht (c :: acc) cs]
    simp [List.append_assoc]

theorem tokenizeAux_nil (acc : List Char) :
    tokenizeAux acc Option.none []
      = if acc.isEmpty then [] else [Tok.lit (String.mk acc.reverse)] := rfl

theorem isEmpty_reverse {α : Type} (l : List α) : l.reverse.isEmpty = l.isEmpty := by
  rcases l with _ | ⟨a, b⟩
  · rfl
  · show ((a :: b).reverse).isEmpty = false
    rcases h : (a :: b).reverse with _ | ⟨c, t⟩
    · have := congrArg List.length h
      simp at this
    · rfl

theorem tokenize_all_lit {a : List Char} (hbf : braceFree a = true) :
    tokenizeAux [] Option.none a = appendLitTok a [] := by
  have h := tokenizeAux_litPrefix hbf [] []
  rw [List.append_nil] at h
  rw [h, List.append_nil, tokenizeAux_nil]
  unfold appendLitTok
  rcases a with _ | ⟨c, t⟩
  · rfl
  · simp [isEmpty_reverse]

theorem tokenizeAux_exprLoop :
    ∀ {p : List Char}, braceFree p = true →
      ∀ (acc eacc rest : List Char), (eacc ≠ [] ∨ p ≠ []) →
        tokenizeAux acc (some eacc) (p ++ '}' :: rest)
          = (if acc.isEmpty then [] else [Tok.lit (String.mk acc.reverse)])
              ++ Tok.expr (String.mk (eacc.reverse ++ p)) :: tokenizeAux [] Option.none rest := by
  intro p
  induction p with
  | nil =>
    intro _ acc eacc rest hne
    have he : eacc ≠ [] := by
      rcases hne with h | h
      · exact h
      · exact absurd rfl h
    have he2 : eacc.isEmpty = false := by
      rcases eacc with _ | ⟨c, t⟩
      · exact absurd rfl he
      · rfl
    show tokenizeAux acc (some eacc) ('}' :: rest) = _
    rw [tokenizeAux]
    simp only [if_pos rfl, if_true, he2, Bool.false_eq_true, if_false, List.append_nil]
  | cons c t ih =>
    intro hbf acc eacc rest hne
    have hc := bfChar_spec (by simp [braceFree] at hbf; exact hbf.1)
    have ht : braceFree t = true := by simp [braceFree] at hbf ⊢; exact hbf.2
    show tokenizeAux acc (some eacc) (c :: (t ++ '}' :: rest)) = _
    rw [tokenizeAux]
    simp only [if_neg hc.2]
    rw [ih ht acc (c :: eacc) rest (Or.inl (by simp))]
    simp [List.append_assoc]

theorem tokenizeAux_expr {a p : List Char} (ha : braceFree a = true)
    (hp : braceFree p = true) (hpne : p ≠ []) (rest : List Char) :
    tokenizeAux [] Option.none (a ++ '{' :: (p ++ '}' :: rest))
      = appendLitTok a (Tok.expr (String.mk p) :: tokenizeAux [] Option.none rest) := by
  rw [tokenizeAux_litPrefix ha [] ('{' :: (p ++ '}' :: rest))]
  rw [List.append_nil]
  rw [tokenizeAux]
  simp only [if_pos rfl]
  rw [tokenizeAux_exprLoop hp a.reverse [] rest (Or.inr hpne)]
  unfold appendLitTok
  rcases a with _ | ⟨c, t⟩
  · simp
  · simp [isEmpty_reverse]

theorem renderToks_appendLitTok (ctx : Value) (l : List Char) (ts : List Tok) :
    renderToks ctx (appendLitTok l ts) = String.mk l ++ renderToks ctx ts := by
  unfold appendLitTok
  rcases l with _ | ⟨c, t⟩
  · show renderToks ctx ts = String.mk [] ++ renderToks ctx ts
    have : String.mk ([] : List Char) = "" := rfl
    rw [this]
    apply String.ext
    simp [String.data_append]
  · rfl

theorem appendLitTok_ne_nil (l : List Char) (t : Tok) (ts : List Tok) :
    appendLitTok l (t :: ts) ≠ [] := by
  unfold appendLitTok
  rcases l with _ | ⟨c, cs⟩ <;> simp

theorem interpolateString_default {ctx : Value} {text : String}
    (h : ∀ p, tokenize text ≠ [Tok.expr p]) :
    interpolateString ctx text = Value.str (renderToks ctx (tokenize text)) := by
  unfold interpolateString
  cases htoks : tokenize text with
  | nil => rfl
  | cons t1 rest =>
    cases t1 with
    | lit s => rfl
    | expr p =>
      cases rest with
      | nil => exact absurd htoks (h p)
      | cons t2 ts => rfl

theorem data_ne_nil {s : String} (h : s ≠ "") : s.data ≠ [] := by
  intro hd
  exact h (String.ext hd)

theorem renderToks_expr_ok {ctx : Value} {p : String} {v : Value}
    (h : resolvePath ctx p = .ok v) (ts : List Tok) :
    renderToks ctx (Tok.expr p :: ts) = toEmbed v ++ renderToks ctx ts := by
  simp only [renderToks]
  rw [h]

theorem renderToks_expr_err {ctx : Value} {p : String} {e : PyErr}
    (h : resolvePath ctx p = .error e) (ts : List Tok) :
    renderToks ctx (Tok.expr p :: ts) = ("\x7b" ++ p ++ "\x7d") ++ renderToks ctx ts := by
  simp only [renderToks]
  rw [h]

theorem interpolate_str (ctx : Value) (s : String) :
    ParameterInterpolator.interpolate ctx (Value.str s) = interpolateString ctx s := rfl

/-- The token list of a string of the shape a{p}b with brace-free a, p, b
and nonempty p. -/
theorem tokenize_one_expr {a p b : String} (hba : braceFreeStr a = true)
    (hbp : braceFreeStr p = true) (hbb : braceFreeStr b = true) (hpne : p ≠ "") :
    tokenize (a ++ "\x7b" ++ p ++ "\x7d" ++ b)
      = appendLitTok a.data (Tok.expr p :: appendLitTok b.data []) := by
  have hdata : (a ++ "\x7b" ++ p ++ "\x7d" ++ b).data
      = a.data ++ '{' :: (p.data ++ '}' :: b.data) := by
    simp [String.data_append]
  unfold tokenize
  rw [hdata, tokenizeAux_expr hba hbp (data_ne_nil hpne) b.data, tokenize_all_lit hbb]

/-- The token list of a string of the shape a{p}b{q}c with brace-free
literal parts and nonempty paths. -/
theorem tokenize_two_expr {a p b q c : String} (hba : braceFreeStr a = true)
    (hbp : braceFreeStr p = true) (hbb : braceFreeStr b = true)
    (hbq : braceFreeStr q = true) (hbc : braceFreeStr c = true)
    (hpne : p ≠ "") (hqne : q ≠ "") :
    tokenize (a ++ "\x7b" ++ p ++ "\x7d" ++ b ++ "\x7b" ++ q ++ "\x7d" ++ c)
      = appendLitTok a.data (Tok.expr p ::
          appendLitTok b.data (Tok.expr q :: appendLitTok c.data [])) := by
  have hdata : (a ++ "\x7b" ++ p ++ "\x7d" ++ b ++ "\x7b" ++ q ++ "\x7d" ++ c).data
      = a.data ++ '{' :: (p.data ++ '}' :: (b.data ++ '{' :: (q.data ++ '}' :: c.data))) := by
    simp [String.data_append]
  unfold tokenize
  rw [hdata, tokenizeAux_expr hba hbp (data_ne_nil hpne),
    tokenizeAux_expr hbb hbq (data_ne_nil hqne), tokenize_all_lit hbc]

theorem data_nil_eq_empty {s : String} (h : s.data = []) : s = "" := String.ext h

/-- The context of the type-preservation example of the specification. -/
def ctx7ex : Value := Value.dict [("a", Value.dict [("b", Value.dict [("result",
  Value.dict [("x", Value.int 1), ("y", Value.int 2)])])])]

/-- Claim C7: a string that is exactly one resolving brace expression
interpolates to the resolved value itself (original type preserved); a
string mixing literal text with a resolving expression interpolates to
text with the value embedded — dicts and lists serialised by json.dumps,
other values via str. The last two conjuncts are the concrete example of
the claim: context a.b.result = the mapping x 1 y 2. -/
theorem interpolation_type_preservation :
    (∀ (ctx v : Value) (p : String), braceFreeStr p = true → p ≠ "" →
      resolvePath ctx p = .ok v →
      ParameterInterpolator.interpolate ctx (Value.str ("\x7b" ++ p ++ "\x7d")) = v) ∧
    (∀ (ctx v : Value) (a p b : String), braceFreeStr a = true → braceFreeStr p = true →
      braceFreeStr b = true → p ≠ "" → (a ≠ "" ∨ b ≠ "") → Value.jsonable v = true →
      resolvePath ctx p = .ok v →
      ParameterInterpolator.interpolate ctx (Value.str (a ++ "\x7b" ++ p ++ "\x7d" ++ b))
        = Value.str (a ++ toEmbed v ++ b)) ∧
    ParameterInterpolator.interpolate ctx7ex (Value.str "\x7ba.b.result\x7d")
      = Value.dict [("x", Value.int 1), ("y", Value.int 2)] ∧
    ParameterInterpolator.interpolate ctx7ex (Value.str "val=\x7ba.b.result.x\x7d")
      = Value.str "val=1" := by
  refine ⟨?_, ?_, rfl, rfl⟩
  · intro ctx v p hbp hpne hres
    rw [interpolate_str]
    have htoks : tokenize ("\x7b" ++ p ++ "\x7d") = [Tok.expr p] := by
      have h := tokenize_one_expr (a := "") (b := "") rfl hbp rfl hpne
      rw [show ("" ++ "\x7b" ++ p ++ "\x7d" ++ "" : String) = "\x7b" ++ p ++ "\x7d" by
        apply String.ext; simp [String.data_append]] at h
      rw [h]
      rfl
    unfold interpolateString
    rw [htoks]
    simp only [hres]
  · intro ctx v a p b hba hbp hbb hpne hab hjson hres
    rw [interpolate_str]
    have htoks := tokenize_one_expr hba hbp hbb hpne
    have hne : ∀ q, tokenize (a ++ "\x7b" ++ p ++ "\x7d" ++ b) ≠ [Tok.expr q] := by
      intro q hq
      rw [htoks] at hq
      rcases ha : a.data with _ | ⟨c1, t1⟩
      · have hbne : b ≠ "" := by
          rcases hab with h | h
          · exact absurd (data_nil_eq_empty ha) h
          · exact h
        rw [ha] at hq
        unfold appendLitTok at hq
        simp at hq
        rcases hb : b.data with _ | ⟨c2, t2⟩
        · exact hbne (data_nil_eq_empty hb)
        · rw [hb] at hq
          simp at hq
      · rw [ha] at hq
        unfold appendLitTok at hq
        simp at hq
    rw [interpolateString_default hne, htoks]
    rw [renderToks_appendLitTok, renderToks_expr_ok hres, renderToks_appendLitTok]
    rw [show renderToks ctx [] = "" from rfl]
    rw [show String.mk a.data = a from rfl, show String.mk b.data = b from rfl]
    apply congrArg Value.str
    apply String.ext
    simp [String.data_append]

theorem interpolation_type_preservation_witness :
    ParameterInterpolator.interpolate ctx7ex
        (Value.str ("\x7b" ++ "a.b.result" ++ "\x7d"))
      = Value.dict [("x", Value.int 1), ("y", Value.int 2)] ∧
    ParameterInterpolator.interpolate ctx7ex
        (Value.str ("val=" ++ "\x7b" ++ "a.b.result.x" ++ "\x7d" ++ ""))
      = Value.str ("val=" ++ toEmbed (Value.int 1) ++ "") := by
  constructor
  · exact interpolation_type_preservation.1 ctx7ex
      (Value.dict [("x", Value.int 1), ("y", Value.int 2)]) "a.b.result" rfl (by decide) rfl
  · exact interpolation_type_preservation.2.1 ctx7ex (Value.int 1) "val=" "a.b.result.x" ""
      rfl rfl rfl (by decide) (Or.inl (by decide)) rfl rfl

/-- The context of the resolution-error examples: a two-element list
under key xs. -/
def ctx8ex : Value := Value.dict [("xs", Value.list [Value.int 10, Value.int 20])]

/-- Claim C8: a failing expression fails resolution of that expression
only. A whole-string failing expression interpolates to the original
text; in a mixed string the failing expression keeps its literal brace
text while every other (resolving) expression is still substituted; the
embedded interpolate is a total function, so no resolution failure can
raise. The concrete conjuncts show the index semantics on a two-element
list: a negative in-range index resolves, a negative out-of-range index
fails with IndexError, a too-large positive index fails with KeyError,
and a missing key fails with KeyError. -/
theorem resolution_error_best_effort :
    (∀ (ctx : Value) (p : String) (e : PyErr), braceFreeStr p = true → p ≠ "" →
      resolvePath ctx p = .error e →
      ParameterInterpolator.interpolate ctx (Value.str ("\x7b" ++ p ++ "\x7d"))
        = Value.str ("\x7b" ++ p ++ "\x7d")) ∧
    (∀ (ctx v : Value) (a p b q c : String) (e : PyErr),
      braceFreeStr a = true → braceFreeStr p = true → braceFreeStr b = true →
      braceFreeStr q = true → braceFreeStr c = true → p ≠ "" → q ≠ "" →
      resolvePath ctx p = .error e → resolvePath ctx q = .ok v → Value.jsonable v = true →
      ParameterInterpolator.interpolate ctx
          (Value.str (a ++ "\x7b" ++ p ++ "\x7d" ++ b ++ "\x7b" ++ q ++ "\x7d" ++ c))
        = Value.str (a ++ "\x7b" ++ p ++ "\x7d" ++ b ++ toEmbed v ++ c)) ∧
    resolvePath ctx8ex "xs[-1]" = .ok (Value.int 20) ∧
    resolvePath ctx8ex "xs[-5]" = .error ⟨"IndexError", "list index out of range"⟩ ∧
    resolvePath ctx8ex "xs[7]" = .error ⟨"KeyError", "Invalid array index in path"⟩ ∧
    resolvePath ctx8ex "missing.key" = .error ⟨"KeyError", "Key not found in path"⟩ := by
  refine ⟨?_, ?_, rfl, rfl, rfl, rfl⟩
  · intro ctx p e hbp hpne hres
    rw [interpolate_str]
    have htoks : tokenize ("\x7b" ++ p ++ "\x7d") = [Tok.expr p] := by
      have h := tokenize_one_expr (a := "") (b := "") rfl hbp rfl hpne
      rw [show ("" ++ "\x7b" ++ p ++ "\x7d" ++ "" : String) = "\x7b" ++ p ++ "\x7d" by
        apply String.ext; simp [String.data_append]] at h
      rw [h]
      rfl
    unfold interpolateString
    rw [htoks]
    simp only [hres]
  · intro ctx v a p b q c e hba hbp hbb hbq hbc hpne hqne hp hq hjson
    rw [interpolate_str]
    have htoks := tokenize_two_expr hba hbp hbb hbq hbc hpne hqne
    have hne : ∀ r, tokenize (a ++ "\x7b" ++ p ++ "\x7d" ++ b ++ "\x7b" ++ q ++ "\x7d" ++ c)
        ≠ [Tok.expr r] := by
      intro r hr
      rw [htoks] at hr
      rcases ha : a.data with _ | ⟨c1, t1⟩
      · rw [ha] at hr
        unfold appendLitTok at hr
        simp at hr
        obtain ⟨_, hr2⟩ := hr
        rcases hb : b.data with _ | ⟨c2, t2⟩
        · rw [hb] at hr2
          simp at hr2
        · rw [hb] at hr2
          simp at hr2
      · rw [ha] at hr
        unfold appendLitTok at hr
        simp at hr
    rw [interpolateString_default hne, htoks]
    rw [renderToks_appendLitTok, renderToks_expr_err hp, renderToks_appendLitTok,
      renderToks_expr_ok hq, renderToks_appendLitTok]
    rw [show renderToks ctx [] = "" from rfl]
    rw [show String.mk a.data = a from rfl, show String.mk b.data = b from rfl,
      show String.mk c.data = c from rfl]
    apply congrArg Value.str
    apply String.ext
    simp [String.data_append]

theorem resolution_error_best_effort_witness :
    ParameterInterpolator.interpolate ctx8ex (Value.str ("\x7b" ++ "xs[-5]" ++ "\x7d"))
      = Value.str ("\x7b" ++ "xs[-5]" ++ "\x7d") ∧
    ParameterInterpolator.interpolate ctx8ex
        (Value.str ("u=" ++ "\x7b" ++ "xs[7]" ++ "\x7d" ++ " " ++ "\x7b" ++ "xs[-1]" ++ "\x7d"
          ++ "!"))
      = Value.str ("u=" ++ "\x7b" ++ "xs[7]" ++ "\x7d" ++ " " ++ toEmbed (Value.int 20)
          ++ "!") := by
  constructor
  · exact resolution_error_best_effort.1 ctx8ex "xs[-5]"
      ⟨"IndexError", "list index out of range"⟩ rfl (by decide) rfl
  · exact resolution_error_best_effort.2.1 ctx8ex (Value.int 20) "u=" "xs[7]" " " "xs[-1]" "!"
      ⟨"KeyError", "Invalid array index in path"⟩ rfl rfl rfl rfl rfl (by decide) (by decide)
      rfl rfl rfl

end AgentOS
